import Mathlib

/-!
Shallow embedding of `src/web/wavespeed_dynamic_real_node.js` (WaveSpeedAI
ComfyUI dynamic-node extension), together with theorems settling the frozen
claims about the placeholder pool manager, the schema parser, the schema
cache, the value collector and the execution-time rewriter.

JavaScript objects are modelled as association lists (`List (String × _)`,
first-occurrence lookup), JS `undefined`/`null` as `Option.none`, and JSON
values as the inductive `JVal` (numbers as `Rat`; none of the claims depends
on float rounding).  The host's `parseFloat` and `String(..)` conversions are
external builtins and are passed as explicit function parameters.
-/

namespace WaveSpeed

/-- An element of a JS array value.  The arrays this extension builds and
inspects hold only strings and numbers (comma-separated text converted to a
typed list), so array items are modelled by this flat scalar type. -/
inductive JItem where
  | str (s : String)
  | num (q : Rat)
  deriving DecidableEq, Repr

/-- JSON-ish runtime value (JS value as seen by this extension). -/
inductive JVal where
  | str (s : String)
  | num (q : Rat)
  | bool (b : Bool)
  | arr (xs : List JItem)
  | null
  deriving DecidableEq, Repr

/-- JS truthiness for the values the extension inspects. -/
def jvTruthy : JVal → Bool
  | .str s => s ≠ ""
  | .num q => q ≠ 0
  | .bool b => b
  | .arr _ => true
  | .null => false

/-- JS `a || b` for an optional left operand (`none` = `undefined`/`null`). -/
def jsOrJV (a : Option JVal) (b : JVal) : JVal :=
  match a with
  | some v => if jvTruthy v then v else b
  | none => b

/-- `needle` occurs at the front of `hay`. -/
def charSeqHasPre : List Char → List Char → Bool
  | [], _ => true
  | _ :: _, [] => false
  | a :: as, b :: bs => a == b && charSeqHasPre as bs

/-- `needle` occurs contiguously somewhere in `hay` (JS `String.includes`). -/
def charSeqHasSeq (needle : List Char) : List Char → Bool
  | [] => needle.isEmpty
  | b :: bs => charSeqHasPre needle (b :: bs) || charSeqHasSeq needle bs

/-- JS `hay.includes(needle)`. -/
def strIncludes (hay needle : String) : Bool :=
  charSeqHasSeq needle.data hay.data

/-- JS `s.toLowerCase()` (ASCII, which is all the heuristics compare). -/
def jsToLower (s : String) : String :=
  ⟨s.data.map Char.toLower⟩

/-- JS regex test `name.match(/^param_\d+$/)`: the fixed placeholder-slot
naming convention `param_1` … (one or more digits after the underscore). -/
def isParamSlotName (s : String) : Bool :=
  charSeqHasPre "param_".data s.data && decide (s.data.length > 6) &&
    (s.data.drop 6).all Char.isDigit

/-- The name of placeholder slot `i` (`"param_" + i`). -/
def slotName (i : Nat) : String :=
  "param_" ++ toString i

/-- Strip the `"* "` display marker off a parameter name
(`inputName.startsWith('* ') ? inputName.substring(2) : inputName`). -/
def cleanParamName (s : String) : String :=
  if charSeqHasPre "* ".data s.data then ⟨s.data.drop 2⟩ else s

/-- JS object assignment `m[k] = v`: overwrite in place if the key exists,
else append (JS objects preserve insertion order). -/
def objSet {V : Type} (m : List (String × V)) (k : String) (v : V) :
    List (String × V) :=
  if (m.lookup k).isSome then
    m.map (fun p => if p.1 = k then (k, v) else p)
  else
    m ++ [(k, v)]

/-! ## Schema parser (`parseModelParameters` and helpers) -/

/-- The `items` object of an array-typed JSON-schema property. -/
structure SchemaItems where
  type : Option String := none
  deriving DecidableEq, Repr

/-- One property of the raw `input_schema` (the fields the extension reads). -/
structure SchemaProp where
  type : Option String := none
  disabled : Bool := false
  hidden : Bool := false
  enum : Option (List JVal) := none
  default : Option JVal := none
  description : Option String := none
  minimum : Option Rat := none
  maximum : Option Rat := none
  items : Option SchemaItems := none
  deriving DecidableEq, Repr

/-- The raw `input_schema` object: `properties` as an insertion-ordered
association list (JS object keys are unique), the `required` name list, and
the optional `x-order-properties` ordering hint. -/
structure InputSchema where
  properties : Option (List (String × SchemaProp)) := none
  required : Option (List String) := none
  orderHint : Option (List String) := none
  deriving DecidableEq, Repr

/-- Normalized parameter descriptor produced by `parseModelParameters`. -/
structure Param where
  name : String
  displayName : String
  type : String
  required : Bool
  default : Option JVal := none
  description : String := ""
  isArray : Bool := false
  arrayItems : Option SchemaItems := none
  options : Option (List JVal) := none
  min : Option Rat := none
  max : Option Rat := none
  step : Option Rat := none
  deriving DecidableEq, Repr

/-- `mapJsonSchemaType`: JSON-schema type → ComfyUI display type.  A declared
`enum` (even an empty one — JS `if (prop.enum)`) forces `"COMBO"`. -/
def mapJsonSchemaType (prop : SchemaProp) : String :=
  match prop.enum with
  | some _ => "COMBO"
  | none =>
    match prop.type with
    | some "string" => "STRING"
    | some "number" => "FLOAT"
    | some "integer" => "INT"
    | some "boolean" => "BOOLEAN"
    | some "array" => "STRING"
    | some "object" => "DICT"
    | _ => "STRING"

/-- `cleanDefaultValue`: blank the default of a parameter whose name
suggests media or free-form text content. -/
def cleanDefaultValue (defaultValue : Option JVal) (propName : String) :
    Option JVal :=
  match defaultValue with
  | none => none
  | some v =>
    let paramName := jsToLower propName
    if strIncludes paramName "image" || strIncludes paramName "video" ||
        strIncludes paramName "audio" || strIncludes paramName "url" then
      some (.str "")
    else if strIncludes paramName "prompt" || strIncludes paramName "text" ||
        strIncludes paramName "description" then
      some (.str "")
    else
      some v

/-- Build one descriptor from a property (the loop body of
`parseModelParameters` after the disabled/hidden guard). -/
def mkParamOfProp (required : List String) (propName : String)
    (prop : SchemaProp) : Param :=
  let base : Param := {
    name := propName
    displayName := propName
    type := mapJsonSchemaType prop
    required := required.contains propName
    default := cleanDefaultValue prop.default propName
    description := prop.description.getD ""
    isArray := prop.type = some "array"
    arrayItems := prop.items }
  let withEnum : Param :=
    match prop.enum with
    | some es =>
      if es.length > 0 then { base with type := "COMBO", options := some es }
      else base
    | none => base
  if prop.type = some "number" || prop.type = some "integer" then
    { withEnum with
        min := prop.minimum
        max := prop.maximum
        step := some (if prop.type = some "integer" then 1 else (1 : Rat) / 100) }
  else
    withEnum

/-- `parseModelParameters(inputSchema)`: iterate the ordering hint (or the
declaration order), skip missing names and disabled/hidden properties, and
normalize each remaining property. -/
def parseModelParameters (s : InputSchema) : List Param :=
  match s.properties with
  | none => []
  | some props =>
    let required := s.required.getD []
    let order := s.orderHint.getD (props.map Prod.fst)
    order.filterMap (fun propName =>
      match props.lookup propName with
      | none => none
      | some prop =>
        if prop.disabled || prop.hidden then none
        else some (mkParamOfProp required propName prop))

/-- `shouldCreateInputPort`: wire-eligibility is a static property of the
display type. -/
def shouldCreateInputPort (param : Param) : Bool :=
  param.type = "STRING" || param.type = "INT" || param.type = "FLOAT" ||
    param.type = "BOOLEAN"

/-- `getInputPortPriority`: content parameters outrank generation parameters
outrank the rest. -/
def getInputPortPriority (param : Param) : Nat :=
  let paramName := jsToLower param.name
  if strIncludes paramName "prompt" || strIncludes paramName "text" ||
      strIncludes paramName "description" then
    100
  else if strIncludes paramName "seed" || strIncludes paramName "width" ||
      strIncludes paramName "height" || strIncludes paramName "steps" ||
      strIncludes paramName "cfg" || strIncludes paramName "scale" ||
      strIncludes paramName "strength" || strIncludes paramName "guidance" then
    50
  else
    10

/-! ## Placeholder pool manager (`allocatePlaceholder`, `clearParamMapping`) -/

/-- The binding object recorded in `paramMapping` for one parameter. -/
structure PlaceholderInfo where
  placeholder : String
  type : String
  originalType : String
  isArray : Bool
  arrayItemType : Option String
  deriving DecidableEq, Repr

/-- The per-node pool bookkeeping inside `wavespeedState`: the
name → binding map, the used-slot set, and the next-candidate hint. -/
structure PoolState where
  paramMapping : List (String × PlaceholderInfo) := []
  usedPlaceholders : List String := []
  nextPlaceholderIndex : Nat := 1
  deriving DecidableEq, Repr

/-- The scan `for (let i = nextPlaceholderIndex; i <= 20; i++)` for the first
slot id whose name is not in the used set. -/
def findFreeSlot (used : List String) (start : Nat) : Option Nat :=
  (List.range' start (21 - start)).find? (fun i => !used.contains (slotName i))

/-- The resolved backend type recorded in the binding: `array-int` /
`array-str` for array parameters by item type, else the scalar type
lower-cased. -/
def resolvedParamType (param : Param) : String :=
  let base := jsToLower param.type
  if param.isArray then
    let itemType := jsToLower ((param.arrayItems.bind (·.type)).getD "string")
    if itemType = "number" || itemType = "integer" || itemType = "float" then
      "array-int"
    else
      "array-str"
  else
    base

/-- `allocatePlaceholder(node, param)`: idempotent lookup, then first-free
scan from the hint; on success record the binding, mark the slot used and
advance the hint past it; on exhaustion return `none` and touch nothing. -/
def allocatePlaceholder (s : PoolState) (param : Param) :
    Option PlaceholderInfo × PoolState :=
  match s.paramMapping.lookup param.name with
  | some info => (some info, s)
  | none =>
    match findFreeSlot s.usedPlaceholders s.nextPlaceholderIndex with
    | none => (none, s)
    | some i =>
      let placeholderName := slotName i
      let info : PlaceholderInfo := {
        placeholder := placeholderName
        type := resolvedParamType param
        originalType := param.type
        isArray := param.isArray
        arrayItemType := param.arrayItems.bind (·.type) }
      (some info,
        { paramMapping := s.paramMapping ++ [(param.name, info)]
          usedPlaceholders := s.usedPlaceholders ++ [placeholderName]
          nextPlaceholderIndex := i + 1 })

/-- `clearParamMapping(node)`: empty the map, clear the used set, reset the
hint to the first slot. -/
def clearParamMapping (_s : PoolState) : PoolState :=
  { paramMapping := [], usedPlaceholders := [], nextPlaceholderIndex := 1 }

/-! ## Parameter widgets (`createParameterWidget`, `createSeedWidget`) -/

/-- One host widget (a LiteGraph/ComfyUI control) with the marker fields
this extension writes onto it.  `value = none` models `undefined`. -/
structure Widget where
  name : String
  wtype : String
  value : Option JVal := none
  optPrecision : Option Nat := none
  optStep : Option Rat := none
  optMin : Option Rat := none
  optMax : Option Rat := none
  options : Option (List JVal) := none
  dynamic : Bool := false
  base : Bool := false
  paramName : Option String := none
  required : Bool := false
  isArrayMark : Bool := false
  arrayItemType : Option String := none
  pairedLink : Option Nat := none
  seedButton : Bool := false
  hidden : Bool := false
  deriving DecidableEq, Repr

/-- JS `a || b` for an optional string left operand (`""` is falsy). -/
def jsOrStr (a : Option String) (b : String) : String :=
  match a with
  | some s => if s = "" then b else s
  | none => b

/-- `widget._wavespeed_array_item_type = param.arrayItems?.type || 'string'`. -/
def arrayItemTypeOf (p : Param) : String :=
  jsOrStr (p.arrayItems.bind (·.type)) "string"

/-- `createSeedWidget(node, param, displayName)`: a number widget with the
fixed seed range plus the two seed buttons, in the order they are added. -/
def createSeedWidget (p : Param) (displayName : String) : List Widget :=
  [{ name := displayName
     wtype := "number"
     value := some (p.default.getD (.num (-1)))
     optPrecision := some 0
     optStep := some 1
     optMin := some (-3)
     optMax := some 1125899906842624 },
   { name := " Random Seed", wtype := "button", value := some (.str "")
     dynamic := true, seedButton := true, paramName := some p.name },
   { name := " Auto Random", wtype := "button", value := some (.str "")
     dynamic := true, seedButton := true, paramName := some p.name }]

/-- The marks `createParameterWidget` writes on the main widget after the
type dispatch (`_wavespeed_dynamic`, `_wavespeed_param_name`,
`_wavespeed_required`). -/
def markDynamic (p : Param) (w : Widget) : Widget :=
  { w with dynamic := true, paramName := some p.name, required := p.required }

/-- `createParameterWidget(node, param, paramIndex)`: the widgets appended to
the node for one parameter, head = the main control carrying the marks.
Mirrors the source dispatch: seed names first, then BOOLEAN / STRING
(multiline or array → customtext) / COMBO / INT / FLOAT, defaulting to a
text widget. -/
def createParameterWidget (p : Param) : List Widget :=
  let paramName := jsToLower p.name
  let description := jsToLower p.description
  let displayName := (if p.required then "* " else "") ++ p.displayName
  let ws : List Widget :=
    if paramName = "seed" ∨ strIncludes paramName "seed" = true then
      createSeedWidget p displayName
    else if p.type = "BOOLEAN" then
      [{ name := displayName, wtype := "toggle"
         value := some (p.default.getD (.bool false)) }]
    else if p.type = "STRING" then
      let isMultiline :=
        strIncludes description "prompt" || strIncludes description "text" ||
        strIncludes description "description" ||
        strIncludes paramName "prompt" ||
        strIncludes paramName "description" ||
        strIncludes paramName "text" ||
        strIncludes paramName "instruction" ||
        strIncludes paramName "content" ||
        strIncludes paramName "image" ||
        (match p.default with
         | some (.str s) => s.length > 50
         | _ => false)
      let isArray := p.isArray
      let arrayTooltip := if isArray then " (comma-separated)" else ""
      if isMultiline || isArray then
        [{ name := displayName ++ arrayTooltip, wtype := "customtext"
           value := some (jsOrJV p.default (.str ""))
           isArrayMark := isArray
           arrayItemType := if isArray then some (arrayItemTypeOf p) else none }]
      else
        [{ name := displayName ++ arrayTooltip, wtype := "text"
           value := some (jsOrJV p.default (.str "")) }]
    else if p.type = "COMBO" ∧ p.options.isSome then
      [{ name := displayName, wtype := "combo"
         value := some (jsOrJV p.default
           (jsOrJV (p.options.getD []).head? (.str "")))
         options := p.options }]
    else if p.type = "INT" ∨ p.type = "FLOAT" then
      let isFloat := p.type = "FLOAT"
      [{ name := displayName, wtype := "number"
         value := some (p.default.getD (.num 0))
         optPrecision := some (if isFloat then 2 else 0)
         optStep := some (p.step.getD (if isFloat then (1 : Rat) / 100 else 1))
         optMin := p.min
         optMax := p.max }]
    else
      [{ name := displayName, wtype := "text"
         value := some (jsOrJV p.default (.str "")) }]
  match ws with
  | [] => []
  | w :: rest => markDynamic p w :: rest

/-! ## Value collection (`collectParameterValues`) -/

/-- Characters removed by JS `String.trim()`. -/
def trimCharSeq (cs : List Char) : List Char :=
  ((cs.dropWhile Char.isWhitespace).reverse.dropWhile Char.isWhitespace).reverse

/-- JS `s.trim()`. -/
def jsTrim (s : String) : String :=
  ⟨trimCharSeq s.data⟩

/-- JS `s.split(',')` on the character list (`"".split(',')` is `[""]`). -/
def splitCommaSeq : List Char → List (List Char)
  | [] => [[]]
  | c :: rest =>
    let r := splitCommaSeq rest
    if c = ',' then [] :: r
    else
      match r with
      | [] => [[c]]
      | g :: gs => (c :: g) :: gs

/-- JS `s.split(',')`. -/
def jsSplitComma (s : String) : List String :=
  (splitCommaSeq s.data).map (fun g => ⟨g⟩)

/-- The array conversion inside `collectParameterValues`:
`value.split(',').map(trim).filter(nonempty)`, then each item parsed with
`parseFloat` when the recorded item type is exactly `'number'` (keeping the
original string when the parse is NaN), else kept as strings. -/
def convertArrayValue (pf : String → Option Rat) (itemType : String)
    (s : String) : JVal :=
  let arrayValue := ((jsSplitComma s).map jsTrim).filter (fun item => item ≠ "")
  if itemType = "number" then
    .arr (arrayValue.map (fun item =>
      match pf item with
      | some n => .num n
      | none => .str item))
  else
    .arr (arrayValue.map JItem.str)

/-- `typeof value === 'string' && value.trim() === ''`. -/
def isBlankStr : JVal → Bool
  | .str s => jsTrim s = ""
  | _ => false

/-- `collectParameterValues(node)`: walk the visible parameter widgets; a
widget whose paired input is connected contributes to `connectedParams`
(when its mapping entry exists); otherwise its value — with the array
conversion applied — is recorded into the returned value object, subject to
the emptiness/required checks of the source.  `pf` stands for the host's
`parseFloat`.  Returns `(widgetValues, connectedParams)`. -/
def collectParameterValues (pm : List (String × PlaceholderInfo))
    (pf : String → Option Rat) (widgets : List Widget) :
    List (String × Option JVal) × List (String × PlaceholderInfo) :=
  widgets.foldl (fun acc w =>
    match w.paramName with
    | none => acc
    | some paramName =>
      if paramName ≠ "" ∧ ¬w.hidden then
        match w.pairedLink with
        | some _ =>
          match pm.lookup paramName with
          | some info =>
            if info.placeholder ≠ "" then (acc.1, objSet acc.2 paramName info)
            else acc
          | none => acc
        | none =>
          match w.value with
          | some v0 =>
            let v :=
              match v0 with
              | .str s =>
                if w.isArrayMark ∧ jsTrim s ≠ "" then
                  convertArrayValue pf (jsOrStr w.arrayItemType "string") s
                else v0
              | _ => v0
            if w.wtype = "string" ∧ isBlankStr v then
              (if w.required then objSet acc.1 paramName (some v) else acc.1,
                acc.2)
            else if w.wtype = "boolean" ∨ v ≠ .str "" then
              (objSet acc.1 paramName (some v), acc.2)
            else acc
          | none =>
            if w.required then (objSet acc.1 paramName none, acc.2) else acc
      else acc)
    ([], [])

/-- The name-level keep predicate realized by `parseModelParameters`: the
name resolves to a property that is neither disabled nor hidden. -/
def keepName (props : List (String × SchemaProp)) (n : String) : Bool :=
  match props.lookup n with
  | some prop => !(prop.disabled || prop.hidden)
  | none => false

/-! ## Schema cache (`GLOBAL_CACHE` and the three cached read operations) -/

/-- A category or model entry returned by the service (`{name, value}`). -/
structure NamedEntry where
  name : String
  value : String
  deriving DecidableEq, Repr

/-- A model detail object (`result.data` of the model endpoint). -/
structure ModelDetail where
  input_schema : Option InputSchema := none
  deriving DecidableEq, Repr

/-- The process-wide `GLOBAL_CACHE` object.  Timestamps are JS epoch
milliseconds; `cacheExpiry` is initialized to 5 minutes and never written
again. -/
structure CacheState where
  categories : Option (List NamedEntry) := none
  modelsByCategory : List (String × List NamedEntry) := []
  modelDetails : List (String × ModelDetail) := []
  lastCategoryUpdate : Int := 0
  lastModelUpdate : List (String × Int) := []
  cacheExpiry : Int := 5 * 60 * 1000
  deriving DecidableEq, Repr

/-- `isCacheExpired(timestamp)`: `Date.now() - timestamp > cacheExpiry`. -/
def isCacheExpired (g : CacheState) (now timestamp : Int) : Bool :=
  now - timestamp > g.cacheExpiry

/-- `getCachedCategories()`.  `now` is `Date.now()`; `fetched` is the value
the remote fetch would deliver; the `Bool` reports whether a fetch
happened. -/
def getCachedCategories (g : CacheState) (now : Int)
    (fetched : List NamedEntry) : List NamedEntry × CacheState × Bool :=
  if g.categories = none ∨ isCacheExpired g now g.lastCategoryUpdate then
    (fetched,
      { g with categories := some fetched, lastCategoryUpdate := now }, true)
  else
    ((g.categories).getD [], g, false)

/-- `getCachedModelsByCategory(category)`. -/
def getCachedModelsByCategory (g : CacheState) (now : Int) (category : String)
    (fetched : List NamedEntry) : List NamedEntry × CacheState × Bool :=
  if (g.modelsByCategory.lookup category) = none ∨
      isCacheExpired g now ((g.lastModelUpdate.lookup category).getD 0) then
    (fetched,
      { g with
          modelsByCategory := objSet g.modelsByCategory category fetched
          lastModelUpdate := objSet g.lastModelUpdate category now }, true)
  else
    ((g.modelsByCategory.lookup category).getD [], g, false)

/-- `getCachedModelDetail(modelId)`.  Note: the source checks only presence
(`!GLOBAL_CACHE.modelDetails[modelId]`) — it never consults `Date.now()`,
`isCacheExpired` or any stored timestamp, so this function takes no `now`
argument. -/
def getCachedModelDetail (g : CacheState) (modelId : String)
    (fetched : Option ModelDetail) :
    Option ModelDetail × CacheState × Bool :=
  match g.modelDetails.lookup modelId with
  | some d => (some d, g, false)
  | none =>
    match fetched with
    | some d =>
      (some d, { g with modelDetails := objSet g.modelDetails modelId d },
        true)
    | none => (none, g, true)

/-! ## Execution-time rewriter (`transformDynamicNodeForExecution`) -/

/-- A value of a serialized prompt node's `inputs` object.  Wire connections
are the `[originNodeId, originSlot]` arrays (`Array.isArray` is the
discriminator in the source); `strv` is a plain string field; `reqObj` and
`mapObj` stand for the `request_json` / `param_map` blobs, kept structured
here instead of JSON-stringified (the stringification is injective and no
claim inspects the text); `jv` is any other widget value. -/
inductive NodeInVal where
  | conn (origin : Int) (slot : Int)
  | strv (s : String)
  | reqObj (o : List (String × JVal))
  | mapObj (m : List (String × PlaceholderInfo))
  | jv (v : JVal)
  deriving DecidableEq, Repr

/-- Per-parameter widget metadata collected for the rewriter
(`collectParameterMetadata`). -/
structure ParamMeta where
  isArray : Bool := false
  arrayItemType : Option String := none
  deriving DecidableEq, Repr

/-- The `_wavespeed_dynamic_state` blob consumed by the rewriter. -/
structure DynState where
  modelId : String
  category : String := ""
  parameterValues : List (String × JVal) := []
  paramMapping : List (String × PlaceholderInfo) := []
  parameterMetadata : List (String × ParamMeta) := []
  deriving DecidableEq, Repr

/-- The array re-processing of one `request_json` value
(`transformDynamicNodeForExecution` lines 2014–2035): for a recorded array
parameter, `'number'` item type parses string items (`parseFloat`, NaN keeps
the string); any other item type stringifies every item.  `numStr` is the
host `String(number)` conversion. -/
def processParamValue (pf : String → Option Rat) (numStr : Rat → String)
    (meta : Option ParamMeta) (v : JVal) : JVal :=
  let m := meta.getD {}
  match v with
  | .arr items =>
    if m.isArray then
      if m.arrayItemType = some "number" then
        .arr (items.map (fun item =>
          match item with
          | .str s =>
            match pf s with
            | some n => .num n
            | none => .str s
          | other => other))
      else
        .arr (items.map (fun item =>
          match item with
          | .str s => JItem.str s
          | .num n => JItem.str (numStr n)))
    else v
  | _ => v

/-- One step of the connection-rewriting loop over `nodeData.inputs`: a
direct `param_N` connection is copied through under its own key; any other
connection is moved onto the placeholder of its (display-marker-stripped)
parameter name when the mapping has one; everything else is dropped. -/
def rewriteStep (paramMap : List (String × PlaceholderInfo))
    (acc : List (String × NodeInVal)) (nv : String × NodeInVal) :
    List (String × NodeInVal) :=
  match nv.2 with
  | .conn o sl =>
    if isParamSlotName nv.1 then objSet acc nv.1 (.conn o sl)
    else
      match paramMap.lookup (cleanParamName nv.1) with
      | some info =>
        if info.placeholder ≠ "" then objSet acc info.placeholder (.conn o sl)
        else acc
      | none => acc
  | _ => acc

/-- `transformDynamicNodeForExecution(nodeData, dynamicState)`: the
transformed `inputs` object — the three static fields built from the
dynamic state, plus every wire connection rewritten onto its placeholder
slot key (the surrounding node keeps only `class_type`/`_meta` besides). -/
def transformDynamicNodeForExecution (pf : String → Option Rat)
    (numStr : Rat → String) (nodeInputs : List (String × NodeInVal))
    (ds : DynState) : List (String × NodeInVal) :=
  let requestJson := ds.parameterValues.foldl
    (fun acc pv =>
      objSet acc (cleanParamName pv.1)
        (processParamValue pf numStr (ds.parameterMetadata.lookup pv.1) pv.2))
    []
  let paramMap := ds.paramMapping
  let base : List (String × NodeInVal) :=
    [("model_id", .strv ds.modelId),
     ("request_json", .reqObj requestJson),
     ("param_map", .mapObj paramMap)]
  nodeInputs.foldl (rewriteStep paramMap) base

/-- The key a given `inputs` entry is written to by `rewriteStep`
(`none` when the entry is dropped or is not a connection). -/
def rewriteTarget (paramMap : List (String × PlaceholderInfo))
    (nv : String × NodeInVal) : Option String :=
  match nv.2 with
  | .conn _ _ =>
    if isParamSlotName nv.1 then some nv.1
    else
      match paramMap.lookup (cleanParamName nv.1) with
      | some info => if info.placeholder ≠ "" then some info.placeholder else none
      | none => none
  | _ => none

/-! ## Dynamic interface initialization (`initializeDynamicInterface`) -/

/-- One entry of a node's input-port collection, with the marker fields the
extension writes.  `placeholderMark` models the truthiness of
`_wavespeed_placeholder`, which is `true` on hidden placeholders and the
(truthy) placeholder-name string on visible pseudo-ports. -/
structure NodeInput where
  name : String
  dynamic : Bool := false
  placeholderMark : Bool := false
  hidden : Bool := false
  link : Option Nat := none
  deriving DecidableEq, Repr

/-- The per-node state the initialization path touches.  `inputs` is the
live filtered `node.inputs`; `hiddenInputs`/`allInputs`/`originalInputs` are
the extension's `_wavespeed_*` tracking arrays. -/
structure UINode where
  widgets : List Widget := []
  inputs : List NodeInput := []
  hiddenInputs : List NodeInput := []
  allInputs : List NodeInput := []
  originalInputs : List NodeInput := []
  pool : PoolState := {}
  modelId : String := ""
  category : String := ""
  parameters : List Param := []
  parameterValues : List (String × JVal) := []
  isInitialized : Bool := false
  deriving DecidableEq, Repr

/-- `_updateVisibleInputs`: mark `param_N`-named entries hidden, move them
to the hidden list, keep the rest visible, and rebuild `allInputs`. -/
def updateVisibleInputs (n : UINode) : UINode :=
  let marked := n.inputs.map (fun i =>
    if isParamSlotName i.name then
      { i with hidden := true, placeholderMark := true }
    else i)
  { n with
      inputs := marked.filter (fun i => !isParamSlotName i.name)
      hiddenInputs := marked.filter (fun i => isParamSlotName i.name)
      allInputs := marked }

/-- `clearDynamicWidgets(node)`: drop every `_wavespeed_dynamic` widget. -/
def clearDynamicWidgets (n : UINode) : UINode :=
  { n with widgets := n.widgets.filter (fun w => !w.dynamic) }

/-- The `Category` selector combo added by `addCategorySelector`. -/
def categoryWidget : Widget :=
  { name := "Category", wtype := "combo", value := some (.str "")
    dynamic := true, base := true }

/-- The `Model` selector combo added by `addModelSelector`. -/
def modelWidget : Widget :=
  { name := "Model", wtype := "combo", value := some (.str "")
    dynamic := true, base := true }

/-- `addCategorySelector(node)` (the widget-list effect; the asynchronous
category-list population only changes the combo's option values). -/
def addCategorySelector (n : UINode) : UINode :=
  { n with widgets := n.widgets ++ [categoryWidget] }

/-- `addModelSelector(node)` (widget-list effect). -/
def addModelSelector (n : UINode) : UINode :=
  { n with widgets := n.widgets ++ [modelWidget] }

/-- The sort comparator of the restore/update paths: higher
`getInputPortPriority` first, required before optional on ties. -/
def priorityBefore (a b : Param) : Bool :=
  let pa := getInputPortPriority a
  let pb := getInputPortPriority b
  if pa ≠ pb then pb < pa
  else if a.required ≠ b.required then a.required
  else false

/-- Stable insertion used to model the host's stable `Array.sort`. -/
def insertStable (x : Param) : List Param → List Param
  | [] => [x]
  | y :: ys => if priorityBefore x y then x :: y :: ys else y :: insertStable x ys

/-- Stable sort by `priorityBefore` (JS `Array.sort` is stable). -/
def stableSortParams : List Param → List Param
  | [] => []
  | x :: xs => insertStable x (stableSortParams xs)

/-- The creation order of `restoreParametersFromCache` /
`updateModelParameters`: required first, then port-needing parameters sorted
by priority, then the control-only rest. -/
def sortedParamsForCreation (params : List Param) : List Param :=
  let allParams := params.filter (fun p => p.required) ++
    params.filter (fun p => !p.required)
  let needing := allParams.filter shouldCreateInputPort
  let notNeeding := allParams.filter (fun p => !shouldCreateInputPort p)
  stableSortParams needing ++ notNeeding

/-- `createWidgetInputPort(node, widget, param)`: allocate a placeholder
(idempotent), look the placeholder input up through the fallback chain
(hidden → all → original → current inputs), and on success append a fresh
visible pseudo-port named after the parameter via the host's `addInput`
(plain append; the source never checks whether a pseudo-port with that name
already exists). -/
def createWidgetInputPortOnNode (n : UINode) (p : Param) : UINode :=
  match allocatePlaceholder n.pool p with
  | (none, pool2) => { n with pool := pool2 }
  | (some info, pool2) =>
    let n2 := { n with pool := pool2 }
    let found : Option NodeInput :=
      match n2.hiddenInputs.find? (fun i => i.name = info.placeholder) with
      | some i => some i
      | none =>
        match n2.allInputs.find? (fun i => i.name = info.placeholder) with
        | some i => some i
        | none =>
          match n2.originalInputs.find?
              (fun i => i.name = info.placeholder) with
          | some i => some i
          | none => n2.inputs.find? (fun i => i.name = info.placeholder)
    match found with
    | none => n2
    | some _ =>
      { n2 with inputs := n2.inputs ++
          [{ name := p.name, dynamic := true, placeholderMark := true }] }

/-- One iteration of the restore loop: create the parameter's widgets
(restoring its cached value into the main control) and, for wire-eligible
parameters, its pseudo-port. -/
def restoreOneParam (n : UINode) (p : Param) : UINode :=
  let ws0 := createParameterWidget p
  let ws :=
    match ws0, n.parameterValues.lookup p.name with
    | w :: rest, some v => { w with value := some v } :: rest
    | l, _ => l
  let n2 := { n with widgets := n.widgets ++ ws }
  if shouldCreateInputPort p then createWidgetInputPortOnNode n2 p else n2

/-- `restoreParametersFromCache(node)`. -/
def restoreParametersFromCache (n : UINode) : UINode :=
  (sortedParamsForCreation n.parameters).foldl restoreOneParam n

/-- `initializeWithCachedData(node)` (restore path): clear dynamic widgets,
re-add the two selectors, and rebuild the parameter controls from the cached
parameter list.  (`restoreModelDisplayName` only touches the model combo's
display value.) -/
def initWithCachedData (n : UINode) : UINode :=
  let n1 := addModelSelector (addCategorySelector (clearDynamicWidgets n))
  if n1.parameters.length > 0 then restoreParametersFromCache n1 else n1

/-- The fresh path of `initializeDynamicInterface`. -/
def initFresh (n : UINode) : UINode :=
  addModelSelector (addCategorySelector (clearDynamicWidgets n))

/-- `initializeDynamicInterface(node)`: pick restore vs fresh, remove
leftover dynamic non-placeholder inputs (none in normal flow: pseudo-ports
carry a truthy placeholder marker), and set the initialized flag.  The
source never reads `isInitialized`. -/
def initDynamicInterface (n : UINode) : UINode :=
  let hasCachedData := n.modelId ≠ "" ∧ n.parameters.length > 0
  let n1 := if hasCachedData then initWithCachedData n else initFresh n
  let leftover := n1.inputs.filter (fun i =>
    i.dynamic && !i.placeholderMark && !isParamSlotName i.name)
  let n2 :=
    if leftover.length > 0 then
      updateVisibleInputs
        { n1 with inputs := n1.inputs.filter (fun i =>
            !i.dynamic || i.placeholderMark || isParamSlotName i.name) }
    else n1
  { n2 with isInitialized := true }

/-! ## Concrete fixtures used by the closed theorems -/

/-- The 20 statically declared placeholder inputs, as the persistent-hiding
setup leaves them (hidden, marked).  Modelled from the spec: the backend
node declaring `param_1` … `param_20` is not part of the JS source; the spec
fixes the pool capacity at 20 with this naming convention. -/
def placeholderInputs20 : List NodeInput :=
  (List.range' 1 20).map (fun i =>
    { name := slotName i, hidden := true, placeholderMark := true })

/-- The single wire-eligible restored parameter of the C9 scenario. -/
def promptParam : Param :=
  { name := "prompt", displayName := "prompt", type := "STRING"
    required := true }

/-- A node as it stands when `initializeDynamicInterface` first runs after a
workflow restore: placeholders hidden, restored model and parameter list in
place, no dynamic widgets yet. -/
def restoredNode : UINode :=
  { inputs := []
    hiddenInputs := placeholderInputs20
    allInputs := placeholderInputs20
    originalInputs := placeholderInputs20
    modelId := "model-a"
    category := "image"
    parameters := [promptParam]
    parameterValues := [("prompt", .str "a cat")] }

/-- A concrete model detail used in the C8 counterexample. -/
def detailA : ModelDetail :=
  { input_schema := some { properties := some [("prompt",
      { type := some "string" })] } }

/-- A second, different model detail (what a later fetch would return). -/
def detailB : ModelDetail :=
  { input_schema := some { properties := some [("seed",
      { type := some "integer" })] } }

/-- A simple concrete number parser (plain digit strings) standing in for
the host `parseFloat` in closed evaluations. -/
def pfDigits (s : String) : Option Rat :=
  if s ≠ "" ∧ s.data.all Char.isDigit then
    some ((s.data.foldl (fun n c => n * 10 + (c.toNat - 48)) 0 : Nat) : Rat)
  else none

/-- The unwired array widget of the C5 counterexample: declared array item
type `integer`, edited text `"1,2"`. -/
def intArrayWidget : Widget :=
  { name := "sizes (comma-separated)", wtype := "customtext"
    value := some (.str "1,2"), dynamic := true, paramName := some "sizes"
    required := false, isArrayMark := true, arrayItemType := some "integer" }

/-- The C6 widget: a required text control whose value is the empty
string. -/
def requiredEmptyTextWidget : Widget :=
  { name := "* prompt", wtype := "text", value := some (.str "")
    dynamic := true, paramName := some "prompt", required := true }

/-- The C7 counterexample schema: one visible property `a`, but an explicit
ordering hint naming only `b` (JS treats any present array — even one that
omits properties — as the iteration order). -/
def hintDropSchema : InputSchema :=
  { properties := some [("a", {})], orderHint := some ["b"] }

end WaveSpeed

namespace WaveSpeed

/-! ## Theorems: placeholder pool claims (C1–C3) -/

/-- Membership in the slot-id scan range. -/
theorem mem_range_findFreeSlot {start n : Nat}
    (h : n ∈ List.range' start (21 - start)) : start ≤ n ∧ n ≤ 20 := by
  rcases List.mem_range'_1.mp h with ⟨h1, h2⟩
  refine ⟨h1, ?_⟩
  omega

/-- **C1.** When all 20 placeholder slots are bound (`param_1` … `param_20`
all in the used set, hint at least 1 as the code maintains), calling
`allocatePlaceholder` for a parameter with no existing binding returns `none`
and leaves the pool state — mapping, used set, and next-candidate hint —
exactly as it was. -/
theorem allocatePlaceholder_exhausted_noop (s : PoolState) (p : Param)
    (hnext : 1 ≤ s.nextPlaceholderIndex)
    (hmap : s.paramMapping.lookup p.name = none)
    (hfull : ((List.range' 1 20).all
      (fun i => s.usedPlaceholders.contains (slotName i))) = true) :
    allocatePlaceholder s p = (none, s) := by
  have hall := List.all_eq_true.mp hfull
  have hfind : findFreeSlot s.usedPlaceholders s.nextPlaceholderIndex = none := by
    unfold findFreeSlot
    rw [List.find?_eq_none]
    intro i hi
    rcases mem_range_findFreeSlot hi with ⟨h1, h2⟩
    have hc : s.usedPlaceholders.contains (slotName i) = true := by
      refine hall i ?_
      refine List.mem_range'_1.mpr ⟨?_, ?_⟩ <;> omega
    simp only [hc]
    simp
  unfold allocatePlaceholder
  rw [hmap, hfind]

/-- Witness for C1: a concrete pool with all 20 slots bound. -/
theorem allocatePlaceholder_exhausted_noop_witness :
    allocatePlaceholder
      { paramMapping := [("prompt",
          { placeholder := "param_1", type := "string",
            originalType := "STRING", isArray := false,
            arrayItemType := none })]
        usedPlaceholders := (List.range' 1 20).map slotName
        nextPlaceholderIndex := 21 }
      { name := "extra", displayName := "extra", type := "STRING",
        required := false } =
      (none,
        { paramMapping := [("prompt",
            { placeholder := "param_1", type := "string",
              originalType := "STRING", isArray := false,
              arrayItemType := none })]
          usedPlaceholders := (List.range' 1 20).map slotName
          nextPlaceholderIndex := 21 }) := by
  apply allocatePlaceholder_exhausted_noop
  · decide
  · rfl
  · decide

/-- **C2.** `clearParamMapping` (run by `clearModelParameters` on every model
switch or clear) frees every binding, empties the used-slot set and resets
the hint to slot 1; consequently the first `allocatePlaceholder` call for any
parameter of the new model returns slot `param_1` — the lowest slot id —
which in particular is not a slot of the previous model's bindings, since
none survive. -/
theorem clearParamMapping_resets_and_allocates_lowest (s : PoolState)
    (p : Param) :
    clearParamMapping s =
      { paramMapping := [], usedPlaceholders := [], nextPlaceholderIndex := 1 } ∧
    ((allocatePlaceholder (clearParamMapping s) p).1).map (·.placeholder) =
      some (slotName 1) ∧
    (allocatePlaceholder (clearParamMapping s) p).2.nextPlaceholderIndex = 2 := by
  refine ⟨rfl, ?_, ?_⟩ <;> rfl

/-- **C3.** `allocatePlaceholder` is idempotent: a parameter name that
already holds a binding gets the identical binding back and the pool state is
returned unchanged (no slot consumed, hint untouched). -/
theorem allocatePlaceholder_idempotent (s : PoolState) (p : Param)
    (info : PlaceholderInfo)
    (h : s.paramMapping.lookup p.name = some info) :
    allocatePlaceholder s p = (some info, s) := by
  unfold allocatePlaceholder
  rw [h]

/-- Witness for C3: re-allocating `prompt` on a concrete one-binding pool. -/
theorem allocatePlaceholder_idempotent_witness :
    allocatePlaceholder
      { paramMapping := [("prompt",
          { placeholder := "param_1", type := "string",
            originalType := "STRING", isArray := false,
            arrayItemType := none })]
        usedPlaceholders := ["param_1"]
        nextPlaceholderIndex := 2 }
      { name := "prompt", displayName := "prompt", type := "STRING",
        required := true } =
      (some { placeholder := "param_1", type := "string",
              originalType := "STRING", isArray := false,
              arrayItemType := none },
        { paramMapping := [("prompt",
            { placeholder := "param_1", type := "string",
              originalType := "STRING", isArray := false,
              arrayItemType := none })]
          usedPlaceholders := ["param_1"]
          nextPlaceholderIndex := 2 }) := by
  exact allocatePlaceholder_idempotent _ _ _ rfl

/-! ## Theorems: schema parser claim (C7) -/

/-- Every descriptor built by the parse loop carries the property name it
was built from. -/
theorem mkParamOfProp_name (req : List String) (n : String)
    (prop : SchemaProp) : (mkParamOfProp req n prop).name = n := by
  unfold mkParamOfProp
  repeat' split
  all_goals rfl

/-- Mapping `Param.name` over a `filterMap` whose results carry their input
name yields the filter of the kept inputs. -/
theorem map_name_filterMap (f : String → Option Param)
    (hf : ∀ n p, f n = some p → p.name = n) (l : List String) :
    (l.filterMap f).map Param.name = l.filter (fun n => (f n).isSome) := by
  induction l with
  | nil => rfl
  | cons a t ih =>
    cases hfa : f a with
    | none => simp [List.filterMap_cons, hfa, ih]
    | some p => simp [List.filterMap_cons, hfa, ih, hf a p hfa]

/-- Counting kept names over the (duplicate-free) key list equals counting
kept properties. -/
theorem filter_keepName_length (props : List (String × SchemaProp))
    (hnd : (props.map Prod.fst).Nodup) :
    ((props.map Prod.fst).filter (keepName props)).length =
      (props.filter (fun p => !(p.2.disabled || p.2.hidden))).length := by
  induction props with
  | nil => rfl
  | cons hd tl ih =>
    obtain ⟨k, v⟩ := hd
    rw [List.map_cons] at hnd
    have hk : k ∉ tl.map Prod.fst := (List.nodup_cons.mp hnd).1
    have hnd2 := (List.nodup_cons.mp hnd).2
    have hcongr : (tl.map Prod.fst).filter (keepName ((k, v) :: tl)) =
        (tl.map Prod.fst).filter (keepName tl) := by
      refine List.filter_congr ?_
      intro n hn
      have hne : (n == k) = false := by
        rw [beq_eq_false_iff_ne]
        intro h
        exact hk (h ▸ hn)
      simp [keepName, List.lookup, hne]
    have hhead : keepName ((k, v) :: tl) k = !(v.disabled || v.hidden) := by
      simp [keepName, List.lookup]
    by_cases h1 : v.disabled = true <;> by_cases h2 : v.hidden = true <;>
      simp [List.filter_cons, hhead, hcongr, ih hnd2, h1, h2]

/-- **C7 counterexample.** A schema with the single visible property `a` and
the explicit ordering hint `["b"]` parses to the empty list: the hint (any
present array, even one omitting properties, is used as the iteration order)
drops `a`, so the output length is not the number of non-disabled/hidden
properties. -/
theorem orderHint_drops_unlisted :
    (parseModelParameters hintDropSchema).length ≠
      (((hintDropSchema.properties).getD []).filter
        (fun p => !(p.2.disabled || p.2.hidden))).length := by
  decide

/-- **C7 (amended).** Provided the explicit ordering hint, when present, is
a permutation of the declared property names (and the property keys are
unique, as JS object keys are), `parse` returns exactly one normalized
descriptor per property not marked disabled or hidden, and the descriptors
appear in the hint order when present, else in declaration order.  (Without
that proviso the claim fails: a hint that omits a property drops it, see the
counterexample.) -/
theorem parseModelParameters_length_order
    (props : List (String × SchemaProp)) (reqList : Option (List String))
    (hint : Option (List String))
    (hnd : (props.map Prod.fst).Nodup)
    (hord : hint = none ∨
      ∃ l, hint = some l ∧ List.Perm l (props.map Prod.fst)) :
    (parseModelParameters
        { properties := some props, required := reqList,
          orderHint := hint }).length =
      (props.filter (fun p => !(p.2.disabled || p.2.hidden))).length ∧
    (parseModelParameters
        { properties := some props, required := reqList,
          orderHint := hint }).map Param.name =
      (hint.getD (props.map Prod.fst)).filter (keepName props) := by
  set f : String → Option Param := fun propName =>
    match props.lookup propName with
    | none => none
    | some prop =>
      if prop.disabled || prop.hidden then none
      else some (mkParamOfProp (reqList.getD []) propName prop) with hfdef
  set order : List String := hint.getD (props.map Prod.fst) with horder
  have hparse : parseModelParameters
      { properties := some props, required := reqList, orderHint := hint } =
      order.filterMap f := by
    rw [hfdef, horder]
    simp only [parseModelParameters]
  have hf : ∀ n p, f n = some p → p.name = n := by
    intro n p h
    simp only [hfdef] at h
    split at h
    · cases h
    · split at h
      · cases h
      · cases h
        exact mkParamOfProp_name _ _ _
  have hiso : ∀ n, (f n).isSome = keepName props n := by
    intro n
    simp only [hfdef]
    cases hl : props.lookup n with
    | none => simp [keepName, hl]
    | some prop =>
      by_cases hd : (prop.disabled || prop.hidden) = true <;>
        simp [keepName, hl, hd]
  have hmap : (order.filterMap f).map Param.name =
      order.filter (keepName props) := by
    rw [map_name_filterMap f hf order]
    exact List.filter_congr (fun n _ => hiso n)
  constructor
  · have hlen : (order.filterMap f).length =
        (order.filter (keepName props)).length := by
      rw [← hmap, List.length_map]
    rw [hparse, hlen]
    rcases hord with hnone | ⟨l, hsome, hperm⟩
    · subst hnone
      have ho2 : order = props.map Prod.fst := horder
      rw [ho2]
      exact filter_keepName_length props hnd
    · subst hsome
      have ho2 : order = l := horder
      rw [ho2]
      rw [List.Perm.length_eq (hperm.filter (keepName props))]
      exact filter_keepName_length props hnd
  · rw [hparse, hmap]

/-- Witness for C7 (amended): two properties, one hidden, hint a permutation
of the keys. -/
theorem parseModelParameters_length_order_witness :
    (parseModelParameters
        { properties := some [("prompt", { type := some "string" }),
            ("internal", { hidden := true })],
          required := some ["prompt"],
          orderHint := some ["internal", "prompt"] }).length = 1 ∧
    (parseModelParameters
        { properties := some [("prompt", { type := some "string" }),
            ("internal", { hidden := true })],
          required := some ["prompt"],
          orderHint := some ["internal", "prompt"] }).map Param.name =
      ["prompt"] := by
  have h := parseModelParameters_length_order
    [("prompt", { type := some "string" }), ("internal", { hidden := true })]
    (some ["prompt"]) (some ["internal", "prompt"])
    (by decide) (Or.inr ⟨["internal", "prompt"], rfl, by decide⟩)
  exact ⟨h.1.trans (by decide), h.2.trans (by decide)⟩

/-! ## Theorems: execution-time rewriter claim (C4) -/

/-- Association-list lookup at the head key. -/
theorem lookup_cons_self {V : Type} (a : String) (b : V)
    (tl : List (String × V)) : List.lookup a ((a, b) :: tl) = some b := by
  simp [List.lookup]

/-- Association-list lookup skipping a different head key. -/
theorem lookup_cons_ne {V : Type} (a k : String) (b : V)
    (tl : List (String × V)) (h : (k == a) = false) :
    List.lookup k ((a, b) :: tl) = List.lookup k tl := by
  simp [List.lookup, h]

/-- The replacement step of `objSet` at the matching key. -/
theorem replaceFun_hit {V : Type} (k : String) (v b : V) :
    (if ((k, b) : String × V).1 = k then (k, v) else (k, b)) = (k, v) :=
  if_pos rfl

/-- The replacement step of `objSet` at a different key. -/
theorem replaceFun_miss {V : Type} (k : String) (v : V) (a : String) (b : V)
    (h : ¬a = k) :
    (if ((a, b) : String × V).1 = k then (k, v) else (a, b)) = (a, b) :=
  if_neg h

/-- Looking up the key just replaced in an object (present-key case). -/
theorem lookup_map_replace {V : Type} (m : List (String × V)) (k : String)
    (v : V) (h : (m.lookup k).isSome = true) :
    (m.map (fun p => if p.1 = k then (k, v) else p)).lookup k = some v := by
  induction m with
  | nil => simp at h
  | cons hd tl ih =>
    obtain ⟨a, b⟩ := hd
    rw [List.map_cons]
    by_cases hk : a = k
    · subst hk
      rw [replaceFun_hit, lookup_cons_self]
    · have hbe : (k == a) = false :=
        beq_eq_false_iff_ne.mpr (fun hkk => hk hkk.symm)
      rw [replaceFun_miss k v a b hk, lookup_cons_ne a k b _ hbe]
      apply ih
      rwa [lookup_cons_ne a k b tl hbe] at h

/-- Looking up a different key after a replace leaves the lookup alone. -/
theorem lookup_map_replace_ne {V : Type} (m : List (String × V))
    (k k' : String) (v : V) (h : k' ≠ k) :
    (m.map (fun p => if p.1 = k then (k, v) else p)).lookup k' =
      m.lookup k' := by
  induction m with
  | nil => rfl
  | cons hd tl ih =>
    obtain ⟨a, b⟩ := hd
    rw [List.map_cons]
    by_cases hk : a = k
    · subst hk
      have hbe : (k' == a) = false := beq_eq_false_iff_ne.mpr h
      rw [replaceFun_hit, lookup_cons_ne a k' v _ hbe,
        lookup_cons_ne a k' b tl hbe, ih]
    · cases hbe : (k' == a) with
      | true =>
        have hka : k' = a := by
          have := beq_iff_eq.mp hbe
          exact this
        subst hka
        rw [replaceFun_miss k v k' b hk, lookup_cons_self, lookup_cons_self]
      | false =>
        rw [replaceFun_miss k v a b hk, lookup_cons_ne a k' b _ hbe,
          lookup_cons_ne a k' b tl hbe, ih]

/-- Looking up an appended fresh key finds it. -/
theorem lookup_append_self {V : Type} (m : List (String × V)) (k : String)
    (v : V) (h : m.lookup k = none) :
    (m ++ [(k, v)]).lookup k = some v := by
  induction m with
  | nil => simp [List.lookup]
  | cons hd tl ih =>
    obtain ⟨a, b⟩ := hd
    cases hbe : (k == a) with
    | true =>
      have hka : k = a := beq_iff_eq.mp hbe
      subst hka
      rw [lookup_cons_self] at h
      cases h
    | false =>
      rw [List.cons_append, lookup_cons_ne a k b _ hbe]
      apply ih
      rwa [lookup_cons_ne a k b tl hbe] at h

/-- Appending a fresh key leaves other lookups alone. -/
theorem lookup_append_ne {V : Type} (m : List (String × V)) (k k' : String)
    (v : V) (h : k' ≠ k) :
    (m ++ [(k, v)]).lookup k' = m.lookup k' := by
  induction m with
  | nil => simp [List.lookup, beq_eq_false_iff_ne.mpr h]
  | cons hd tl ih =>
    obtain ⟨a, b⟩ := hd
    rw [List.cons_append]
    cases hbe : (k' == a) with
    | true =>
      have hka : k' = a := beq_iff_eq.mp hbe
      subst hka
      rw [lookup_cons_self, lookup_cons_self]
    | false =>
      rw [lookup_cons_ne a k' b _ hbe, lookup_cons_ne a k' b tl hbe, ih]

/-- JS object assignment then lookup of the same key. -/
theorem objSet_lookup_self {V : Type} (m : List (String × V)) (k : String)
    (v : V) : (objSet m k v).lookup k = some v := by
  unfold objSet
  by_cases h : (m.lookup k).isSome
  · rw [if_pos h]
    exact lookup_map_replace m k v h
  · rw [if_neg h]
    refine lookup_append_self m k v ?_
    cases hm : m.lookup k with
    | none => rfl
    | some b => exact absurd (by rw [hm]; rfl) h

/-- JS object assignment leaves other keys' lookups alone. -/
theorem objSet_lookup_ne {V : Type} (m : List (String × V)) (k k' : String)
    (v : V) (h : k' ≠ k) : (objSet m k v).lookup k' = m.lookup k' := by
  unfold objSet
  by_cases hs : (m.lookup k).isSome
  · rw [if_pos hs]
    exact lookup_map_replace_ne m k k' v h
  · rw [if_neg hs]
    exact lookup_append_ne m k k' v h

/-- `rewriteStep` is exactly: write the entry's value at its
`rewriteTarget`, or drop it. -/
theorem rewriteStep_eq (paramMap : List (String × PlaceholderInfo))
    (acc : List (String × NodeInVal)) (nv : String × NodeInVal) :
    rewriteStep paramMap acc nv =
      match rewriteTarget paramMap nv with
      | some k => objSet acc k nv.2
      | none => acc := by
  obtain ⟨n, v⟩ := nv
  cases v with
  | conn o sl =>
    by_cases hn : isParamSlotName n = true
    · simp [rewriteStep, rewriteTarget, hn]
    · cases hl : paramMap.lookup (cleanParamName n) with
      | none => simp [rewriteStep, rewriteTarget, hn, hl]
      | some info =>
        by_cases hp : info.placeholder = ""
        · simp [rewriteStep, rewriteTarget, hn, hl, hp]
        · simp [rewriteStep, rewriteTarget, hn, hl, hp]
  | strv s => rfl
  | reqObj o => rfl
  | mapObj m2 => rfl
  | jv v2 => rfl

/-- Entries targeting other keys never disturb `k`. -/
theorem foldl_rewriteStep_lookup_of_no_target
    (pm : List (String × PlaceholderInfo))
    (l : List (String × NodeInVal)) (acc : List (String × NodeInVal))
    (k : String) (hk : ∀ e ∈ l, rewriteTarget pm e ≠ some k) :
    (l.foldl (rewriteStep pm) acc).lookup k = acc.lookup k := by
  induction l generalizing acc with
  | nil => rfl
  | cons hd tl ih =>
    rw [List.foldl_cons]
    rw [ih _ (fun e he => hk e (List.mem_cons_of_mem hd he))]
    rw [rewriteStep_eq]
    cases ht : rewriteTarget pm hd with
    | none => rfl
    | some k0 =>
      have hne : k0 ≠ k :=
        fun h => hk hd (List.mem_cons_self hd tl) (by rw [ht, h])
      exact objSet_lookup_ne acc k0 k hd.2 (fun h => hne h.symm)

/-- With pairwise-distinct rewrite targets, the connection of an entry
targeting `k` is what the rewritten object holds at `k`. -/
theorem foldl_rewriteStep_lookup_target
    (pm : List (String × PlaceholderInfo))
    (l : List (String × NodeInVal)) (acc : List (String × NodeInVal))
    (e : String × NodeInVal) (k : String)
    (hmem : e ∈ l) (ht : rewriteTarget pm e = some k)
    (hnd : (l.filterMap (rewriteTarget pm)).Nodup) :
    (l.foldl (rewriteStep pm) acc).lookup k = some e.2 := by
  induction l generalizing acc with
  | nil => cases hmem
  | cons hd tl ih =>
    rw [List.foldl_cons]
    rcases List.mem_cons.mp hmem with heq | hmemtl
    · subst heq
      have hnotk : ∀ e2 ∈ tl, rewriteTarget pm e2 ≠ some k := by
        intro e2 he2 hc
        have hkin : k ∈ tl.filterMap (rewriteTarget pm) :=
          List.mem_filterMap.mpr ⟨e2, he2, hc⟩
        have hft : (e :: tl).filterMap (rewriteTarget pm) =
            k :: tl.filterMap (rewriteTarget pm) := by
          rw [List.filterMap_cons, ht]
        rw [hft] at hnd
        exact (List.nodup_cons.mp hnd).1 hkin
      rw [foldl_rewriteStep_lookup_of_no_target pm tl _ k hnotk]
      rw [rewriteStep_eq, ht]
      exact objSet_lookup_self acc k e.2
    · have hnd2 : (tl.filterMap (rewriteTarget pm)).Nodup := by
        rw [List.filterMap_cons] at hnd
        cases hhd : rewriteTarget pm hd with
        | none => rwa [hhd] at hnd
        | some k0 =>
          rw [hhd] at hnd
          exact (List.nodup_cons.mp hnd).2
      exact ih _ hmemtl hnd2

/-- **C4.** At execution-time transformation with a model selected, every
wire connection in the node's serialized inputs lands where the claim says:
a connection on a visible pseudo-port (non-`param_N` name whose
display-marker-stripped parameter name has a mapping entry with a nonempty
placeholder) is rewritten onto that placeholder slot key, and a connection
already keyed by a placeholder slot name `param_N` is passed through
unchanged under its own key.  The rewrite targets of the node's entries are
assumed pairwise distinct (one wire per slot — the mapping is injective and
pseudo-ports are unique, which is how the synchronizer builds them). -/
theorem transform_rewrites_connections (pf : String → Option Rat)
    (numStr : Rat → String) (nodeInputs : List (String × NodeInVal))
    (ds : DynState) (n : String) (o sl : Int)
    (hmem : (n, NodeInVal.conn o sl) ∈ nodeInputs)
    (hnd : (nodeInputs.filterMap (rewriteTarget ds.paramMapping)).Nodup) :
    (isParamSlotName n = true →
      (transformDynamicNodeForExecution pf numStr nodeInputs ds).lookup n =
        some (.conn o sl)) ∧
    (∀ info, isParamSlotName n = false →
      ds.paramMapping.lookup (cleanParamName n) = some info →
      info.placeholder ≠ "" →
      (transformDynamicNodeForExecution pf numStr nodeInputs ds).lookup
        info.placeholder = some (.conn o sl)) := by
  constructor
  · intro hdirect
    have ht : rewriteTarget ds.paramMapping (n, NodeInVal.conn o sl) =
        some n := by
      simp [rewriteTarget, hdirect]
    exact foldl_rewriteStep_lookup_target ds.paramMapping nodeInputs _
      (n, NodeInVal.conn o sl) n hmem ht hnd
  · intro info hpseudo hlook hne
    have ht : rewriteTarget ds.paramMapping (n, NodeInVal.conn o sl) =
        some info.placeholder := by
      simp [rewriteTarget, hpseudo, hlook, hne]
    exact foldl_rewriteStep_lookup_target ds.paramMapping nodeInputs _
      (n, NodeInVal.conn o sl) info.placeholder hmem ht hnd

/-- Witness for C4: a pseudo-port wire `prompt ← (node 4, slot 0)` lands on
`param_1`; a direct `param_2 ← (node 7, slot 1)` wire passes through. -/
theorem transform_rewrites_connections_witness :
    (transformDynamicNodeForExecution pfDigits (fun _ => "")
      [("prompt", .conn 4 0), ("param_2", .conn 7 1)]
      { modelId := "m"
        paramMapping := [("prompt",
          { placeholder := "param_1", type := "string",
            originalType := "STRING", isArray := false,
            arrayItemType := none })] }).lookup "param_1" =
      some (.conn 4 0) ∧
    (transformDynamicNodeForExecution pfDigits (fun _ => "")
      [("prompt", .conn 4 0), ("param_2", .conn 7 1)]
      { modelId := "m"
        paramMapping := [("prompt",
          { placeholder := "param_1", type := "string",
            originalType := "STRING", isArray := false,
            arrayItemType := none })] }).lookup "param_2" =
      some (.conn 7 1) := by
  constructor
  · exact (transform_rewrites_connections pfDigits (fun _ => "")
      [("prompt", .conn 4 0), ("param_2", .conn 7 1)]
      { modelId := "m"
        paramMapping := [("prompt",
          { placeholder := "param_1", type := "string",
            originalType := "STRING", isArray := false,
            arrayItemType := none })] }
      "prompt" 4 0 (by decide) (by decide)).2
      { placeholder := "param_1", type := "string",
        originalType := "STRING", isArray := false, arrayItemType := none }
      (by decide) (by decide) (by decide)
  · exact (transform_rewrites_connections pfDigits (fun _ => "")
      [("prompt", .conn 4 0), ("param_2", .conn 7 1)]
      { modelId := "m"
        paramMapping := [("prompt",
          { placeholder := "param_1", type := "string",
            originalType := "STRING", isArray := false,
            arrayItemType := none })] }
      "param_2" 7 1 (by decide) (by decide)).1 (by decide)

/-! ## Theorems: schema cache claim (C8) -/

/-- **C8 counterexample.** The model-detail cache has no expiry at all: a
detail stored by one call is returned by every later call with no fetch
(`false` flag), no matter what the remote now holds — `getCachedModelDetail`
never reads a clock or timestamp, so no amount of elapsed time (in
particular, more than 5 minutes) triggers a re-fetch, contradicting the
claim that all three reads share the 5-minute expiry. -/
theorem modelDetail_cache_never_expires :
    (getCachedModelDetail
      (getCachedModelDetail {} "model-x" (some detailA)).2.1
      "model-x" (some detailB)) =
      (some detailA,
        (getCachedModelDetail {} "model-x" (some detailA)).2.1, false) ∧
    detailA ≠ detailB := by
  refine ⟨by decide, by decide⟩

/-- **C8 (amended).** The category list and the per-category model lists are
memoized with the shared 5-minute expiry: once more time than `cacheExpiry`
has passed since their stored timestamp, a call re-fetches and re-stamps the
cache.  The model-detail read, by contrast, is memoized without expiry: a
present entry is returned as-is with no fetch. -/
theorem cache_expiry_behavior (g : CacheState) (now : Int)
    (cs ms : List NamedEntry) (d : ModelDetail) (cat id : String)
    (catsF modsF : List NamedEntry) (dF : Option ModelDetail)
    (hc : g.categories = some cs)
    (hcexp : now - g.lastCategoryUpdate > g.cacheExpiry)
    (hm : g.modelsByCategory.lookup cat = some ms)
    (hmexp : now - (g.lastModelUpdate.lookup cat).getD 0 > g.cacheExpiry)
    (hd : g.modelDetails.lookup id = some d) :
    getCachedCategories g now catsF =
      (catsF,
        { g with categories := some catsF, lastCategoryUpdate := now },
        true) ∧
    getCachedModelsByCategory g now cat modsF =
      (modsF,
        { g with
            modelsByCategory := objSet g.modelsByCategory cat modsF
            lastModelUpdate := objSet g.lastModelUpdate cat now }, true) ∧
    getCachedModelDetail g id dF = (some d, g, false) := by
  refine ⟨?_, ?_, ?_⟩
  · simp [getCachedCategories, isCacheExpired, hcexp]
  · simp [getCachedModelsByCategory, isCacheExpired, hmexp]
  · simp [getCachedModelDetail, hd]

/-- Witness for C8 (amended): everything stamped at epoch 0, read at
`now = 10^9` ms (far beyond 5 minutes). -/
theorem cache_expiry_behavior_witness :
    getCachedCategories
      { categories := some [⟨"img", "image"⟩]
        modelsByCategory := [("image", [⟨"Flux", "flux"⟩])]
        modelDetails := [("flux", detailA)] }
      1000000000 [⟨"vid", "video"⟩] =
      ([⟨"vid", "video"⟩],
        { categories := some [⟨"vid", "video"⟩]
          modelsByCategory := [("image", [⟨"Flux", "flux"⟩])]
          modelDetails := [("flux", detailA)]
          lastCategoryUpdate := 1000000000 }, true) ∧
    getCachedModelDetail
      { categories := some [⟨"img", "image"⟩]
        modelsByCategory := [("image", [⟨"Flux", "flux"⟩])]
        modelDetails := [("flux", detailA)] }
      "flux" (some detailB) =
      (some detailA,
        { categories := some [⟨"img", "image"⟩]
          modelsByCategory := [("image", [⟨"Flux", "flux"⟩])]
          modelDetails := [("flux", detailA)] }, false) := by
  have h := cache_expiry_behavior
    { categories := some [⟨"img", "image"⟩]
      modelsByCategory := [("image", [⟨"Flux", "flux"⟩])]
      modelDetails := [("flux", detailA)] }
    1000000000 [⟨"img", "image"⟩] [⟨"Flux", "flux"⟩] detailA "image" "flux"
    [⟨"vid", "video"⟩] [⟨"Flux2", "flux2"⟩] (some detailB)
    rfl (by decide) rfl (by decide) rfl
  exact ⟨h.1, h.2.2⟩

/-! ## Theorems: seed widget claim (C10) -/

/-- **C10.** For every parameter whose name contains the substring `"seed"`
(case-insensitively), `createParameterWidget` dispatches to the special seed
widget: a number control with the fixed range minimum `-3`, maximum
`1125899906842624`, step `1`, precision `0`, whose value defaults to `-1`
when the schema supplies no default — independent of any `min`/`max` the
schema declared for the parameter (the theorem holds for every such `p`, so
`p.min`/`p.max` are ignored). -/
theorem seed_widget_fixed_range (p : Param)
    (h : strIncludes (jsToLower p.name) "seed" = true) :
    ∃ rest, createParameterWidget p =
      { name := (if p.required then "* " else "") ++ p.displayName
        wtype := "number"
        value := some (p.default.getD (.num (-1)))
        optPrecision := some 0
        optStep := some 1
        optMin := some (-3)
        optMax := some 1125899906842624
        dynamic := true
        paramName := some p.name
        required := p.required } :: rest := by
  unfold createParameterWidget
  simp only [h, or_true, if_true]
  exact ⟨_, rfl⟩

/-! ## Theorems: value collection claims (C5, C6) -/

/-- **C5 counterexample.** For an unwired array parameter whose declared
item type is `integer`, the collected value keeps every item as a string
even under a `parseFloat` that parses them — the code converts to numbers
only when the item type is exactly `'number'` — so the claim's "numeric
item types (including integer) each item is parsed as a number" is false. -/
theorem intArray_items_kept_as_strings :
    (collectParameterValues [] pfDigits [intArrayWidget]).1 =
      [("sizes", some (.arr [.str "1", .str "2"]))] ∧
    pfDigits "1" = some 1 ∧ pfDigits "2" = some 2 ∧
    JVal.arr [.str "1", .str "2"] ≠ JVal.arr [.num 1, .num 2] := by
  refine ⟨by decide, by decide, by decide, by decide⟩

/-- **C5 (amended).** For every unwired array-type parameter the collected
execution value is the comma-split, trimmed, nonempty-filtered item list of
the edited text, with items parsed as numbers (NaN items kept as their
original string) exactly when the declared array item type is the string
`'number'`; for every other declared item type — `integer` included — the
items are kept as strings. -/
theorem arrayParam_conversion (pm : List (String × PlaceholderInfo))
    (pf : String → Option Rat) (pn s itemT : String) (req : Bool)
    (hpn : pn ≠ "") (hs : jsTrim s ≠ "") :
    (collectParameterValues pm pf
      [{ name := pn, wtype := "customtext", value := some (.str s)
         dynamic := true, paramName := some pn, required := req
         isArrayMark := true, arrayItemType := some itemT }]).1 =
      [(pn, some (
        let items := ((jsSplitComma s).map jsTrim).filter
          (fun item => item ≠ "")
        if (if itemT = "" then "string" else itemT) = "number" then
          JVal.arr (items.map (fun item =>
            match pf item with
            | some n => .num n
            | none => .str item))
        else
          JVal.arr (items.map JItem.str)))] := by
  by_cases hnum : (if itemT = "" then "string" else itemT) = "number" <;>
    simp [collectParameterValues, convertArrayValue, jsOrStr, objSet,
      hpn, hs, hnum]

/-- Witness for C5 (amended): item type `integer`, text `"1, 2"`, parsed
items stay strings. -/
theorem arrayParam_conversion_witness :
    (collectParameterValues [] pfDigits
      [{ name := "sizes", wtype := "customtext", value := some (.str "1, 2")
         dynamic := true, paramName := some "sizes", required := false
         isArrayMark := true, arrayItemType := some "integer" }]).1 =
      [("sizes", some (.arr [.str "1", .str "2"]))] := by
  refine (arrayParam_conversion [] pfDigits "sizes" "1, 2" "integer" false
    (by decide) (by decide)).trans ?_
  decide

/-- **C6.** A required parameter whose control value is the empty string is
silently dropped from the collected value object: the guard that would keep
it compares `widget.type` against `"string"`, but the widgets this extension
creates have types `"text"`/`"customtext"` (as the extension's own
`computeSize` assumes), so the branch never fires and the entry is omitted —
contradicting the claim.  A required control whose value is `undefined`,
by contrast, is recorded (second conjunct), which is the intended behavior
the empty-string case misses. -/
theorem requiredEmptyString_dropped :
    (collectParameterValues [] pfDigits [requiredEmptyTextWidget]).1 = [] ∧
    (collectParameterValues [] pfDigits
      [{ requiredEmptyTextWidget with value := none }]).1 =
      [("prompt", none)] := by
  refine ⟨by decide, by decide⟩

/-- Witness for C10: a boolean-typed schema parameter named `RandomSEED`
with schema bounds 0..100 and no default still gets the fixed-range seed
number widget. -/
theorem seed_widget_fixed_range_witness :
    ∃ rest, createParameterWidget
      { name := "RandomSEED", displayName := "RandomSEED", type := "BOOLEAN",
        required := false, min := some 0, max := some 100 } =
      { name := "RandomSEED"
        wtype := "number"
        value := some (.num (-1))
        optPrecision := some 0
        optStep := some 1
        optMin := some (-3)
        optMax := some 1125899906842624
        dynamic := true
        paramName := some "RandomSEED"
        required := false } :: rest := by
  exact seed_widget_fixed_range _ (by decide)

/-! ## Theorems: initialization re-entry claim (C9) -/

/-- **C9.** Re-invoking the initialization entry point on an
already-initialized restored node is not a no-op: the `isInitialized` flag is
set at the end of `initializeDynamicInterface` but never consulted anywhere,
so the second invocation re-clears and re-creates the dynamic widgets and —
because `createWidgetInputPort` appends a fresh visible pseudo-port through
the host's `addInput` without checking for an existing one, while the
placeholder allocation itself is idempotent — the node ends up with two
visible `prompt` pseudo-port inputs where the first invocation produced
one. -/
theorem reinit_duplicates_pseudo_port :
    (initDynamicInterface restoredNode).isInitialized = true ∧
    ((initDynamicInterface restoredNode).inputs.filter
      (fun i => i.name = "prompt")).length = 1 ∧
    ((initDynamicInterface (initDynamicInterface restoredNode)).inputs.filter
      (fun i => i.name = "prompt")).length = 2 := by
  refine ⟨by decide, by decide, by decide⟩

end WaveSpeed
